import Mathlib

/-!
Verification of the `rust_kv_store` key-value store engine.

This file gives a shallow embedding, in Lean 4, of the parts of the
`kv-common` crate that the checked claims are about:

* the per-type operation handlers (`list_ops.rs`, `set_ops.rs`,
  `string_ops.rs`) over the key-to-value table,
* the `Store` core (`store_core.rs`): string set/get, expiry handling and
  the expired-key sweep,
* the memory-pressure computation (`metadata.rs`),
* the write-ahead-log entry codec and replay (`wal.rs`),
* the transaction manager rollback path (`transaction.rs`,
  `store_transaction.rs`).

Rust `HashMap`/`BTreeMap` values are modelled as association lists with
lookup/insert/remove operations whose observable behaviour (via lookup)
matches the map semantics; `HashSet` is modelled as a duplicate-free list
whose `insert` is a no-op on members already present.  Machine integers
(`u64`, `usize`, `isize`) are modelled as `Nat`/`Int`; the one place where
a width-limited cast matters (`as u8` in the pressure computation) is
modelled explicitly.  Wall-clock reads (`SystemTime::now`) become an
explicit `now : Nat` parameter.  Fallible Rust functions returning
`StoreResult`/`Option` become `Except`/`Option`.
-/

namespace KVStore

/-! ## Association-list model of `HashMap` / `BTreeMap` -/

/-- Lookup of a key in an association list: the value of the first matching
entry, mirroring `HashMap::get` (maps built by `insertA`/`removeA` never
hold duplicate keys). -/
def lookupA {κ α : Type} [DecidableEq κ] : List (κ × α) → κ → Option α
  | [], _ => none
  | p :: rest, key => if p.1 = key then some p.2 else lookupA rest key

/-- `HashMap::remove`: drop the entry with the given key. -/
def removeA {κ α : Type} [DecidableEq κ] : List (κ × α) → κ → List (κ × α)
  | [], _ => []
  | p :: rest, key => if p.1 = key then removeA rest key else p :: removeA rest key

/-- `HashMap::insert`: bind the key to the value, replacing any previous
binding. -/
def insertA {κ α : Type} [DecidableEq κ] (l : List (κ × α)) (key : κ) (v : α) : List (κ × α) :=
  (key, v) :: removeA l key

@[simp]
theorem lookupA_nil {κ α : Type} [DecidableEq κ] (key : κ) :
    lookupA ([] : List (κ × α)) key = none := rfl

@[simp]
theorem lookupA_cons {κ α : Type} [DecidableEq κ] (p : κ × α) (rest : List (κ × α)) (key : κ) :
    lookupA (p :: rest) key = if p.1 = key then some p.2 else lookupA rest key := rfl

theorem lookupA_removeA {κ α : Type} [DecidableEq κ] (l : List (κ × α)) (key k : κ) :
    lookupA (removeA l key) k = if k = key then none else lookupA l k := by
  induction l with
  | nil => simp [removeA]
  | cons p rest ih =>
    simp only [removeA]
    by_cases hp : p.1 = key <;> by_cases hk : k = key <;>
      by_cases hpk : p.1 = k <;> simp_all [lookupA]

theorem lookupA_insertA {κ α : Type} [DecidableEq κ] (l : List (κ × α)) (key k : κ) (v : α) :
    lookupA (insertA l key v) k = if key = k then some v else lookupA l k := by
  simp only [insertA, lookupA_cons]
  rw [lookupA_removeA]
  by_cases h : key = k
  · simp [h]
  · have h₂ : ¬k = key := fun hh => h hh.symm
    simp [h, h₂]

@[simp]
theorem lookupA_insertA_self {κ α : Type} [DecidableEq κ] (l : List (κ × α)) (key : κ) (v : α) :
    lookupA (insertA l key v) key = some v := by
  simp [lookupA_insertA]

/-! ## Data model (`data_types.rs`) -/

/-- `DataType` from `data_types.rs`: the tagged value variant stored at a
key.  `Hash` becomes an association list, `Set` a duplicate-free list. -/
inductive DataType : Type where
  | string : String → DataType
  | list : List String → DataType
  | hash : List (String × String) → DataType
  | set : List String → DataType
deriving DecidableEq, Repr

/-- `DataType::type_name` from `data_types.rs`. -/
def DataType.type_name : DataType → String
  | .string _ => "string"
  | .list _ => "list"
  | .hash _ => "hash"
  | .set _ => "set"

/-- `StoreError` from `error.rs` (the variants the embedded operations can
produce). -/
inductive StoreError : Type where
  | keyNotFound : String → StoreError
  | typeMismatch : (key expected found : String) → StoreError
deriving DecidableEq, Repr

/-- The key-to-value table (`data: HashMap<String, DataType>`). -/
abbrev DataMap : Type := List (String × DataType)

/-! ## List handler (`list_ops.rs`) -/

/-- `ListHandler::lpush_internal`: push at the head; a non-list value is
replaced by a fresh one-element list, as is an absent key.  Returns the new
length together with the updated table. -/
def lpush_internal (data : DataMap) (key value : String) :
    Except StoreError (Nat × DataMap) :=
  match lookupA data key with
  | some (DataType.list l) =>
      Except.ok ((value :: l).length, insertA data key (DataType.list (value :: l)))
  | some _ => Except.ok (1, insertA data key (DataType.list [value]))
  | none => Except.ok (1, insertA data key (DataType.list [value]))

/-- `ListHandler::rpush_internal`: push at the tail; otherwise as
`lpush_internal`. -/
def rpush_internal (data : DataMap) (key value : String) :
    Except StoreError (Nat × DataMap) :=
  match lookupA data key with
  | some (DataType.list l) =>
      Except.ok ((l ++ [value]).length, insertA data key (DataType.list (l ++ [value])))
  | some _ => Except.ok (1, insertA data key (DataType.list [value]))
  | none => Except.ok (1, insertA data key (DataType.list [value]))

/-- `ListHandler::lpop_internal`: pop the head; `TypeMismatch` on a
non-list value, `None` on an absent key. -/
def lpop_internal (data : DataMap) (key : String) :
    Except StoreError (Option String × DataMap) :=
  match lookupA data key with
  | some (DataType.list l) =>
      match l with
      | [] => Except.ok (none, data)
      | x :: rest => Except.ok (some x, insertA data key (DataType.list rest))
  | some v => Except.error (StoreError.typeMismatch key "list" v.type_name)
  | none => Except.ok (none, data)

/-- `ListHandler::rpop_internal`: pop the tail; otherwise as
`lpop_internal`. -/
def rpop_internal (data : DataMap) (key : String) :
    Except StoreError (Option String × DataMap) :=
  match lookupA data key with
  | some (DataType.list l) =>
      match l.getLast? with
      | none => Except.ok (none, data)
      | some x => Except.ok (some x, insertA data key (DataType.list l.dropLast))
  | some v => Except.error (StoreError.typeMismatch key "list" v.type_name)
  | none => Except.ok (none, data)

/-- `ListHandler::lrange_internal`: Redis-style range with negative
from-tail indices.  `start_idx`/`end_idx` are computed exactly as in the
source (`as usize` casts of non-negative integers become `Int.toNat`). -/
def lrange_internal (data : DataMap) (key : String) (start stop : Int) :
    Except StoreError (List String) :=
  match lookupA data key with
  | some (DataType.list l) =>
      let len : Int := l.length
      if len = 0 then Except.ok []
      else
        let start_idx : Nat :=
          if start < 0 then (max (len + start) 0).toNat
          else min start.toNat l.length
        let end_idx : Nat :=
          if stop < 0 then (max (len + stop + 1) 0).toNat
          else min (stop + 1).toNat l.length
        if start_idx ≥ end_idx then Except.ok []
        else Except.ok ((l.drop start_idx).take (end_idx - start_idx))
  | some v => Except.error (StoreError.typeMismatch key "list" v.type_name)
  | none => Except.ok []

/-! ## Set handler (`set_ops.rs`) -/

/-- `HashSet::insert` on the duplicate-free list model: a member already
present is left alone. -/
def insertS (s : List String) (m : String) : List String :=
  if m ∈ s then s else s ++ [m]

/-- `SetHandler::sadd_internal`: add the members to the set at the key.
On an existing set the returned count is the growth in cardinality; on an
absent key or a value of another type a fresh set is built from the
members and the returned count is `members.len()`. -/
def sadd_internal (data : DataMap) (key : String) (members : List String) :
    Except StoreError (Nat × DataMap) :=
  match lookupA data key with
  | some (DataType.set s) =>
      let s₂ := members.foldl insertS s
      Except.ok (s₂.length - s.length, insertA data key (DataType.set s₂))
  | some _ =>
      let s₂ := members.foldl insertS []
      Except.ok (members.length, insertA data key (DataType.set s₂))
  | none =>
      let s₂ := members.foldl insertS []
      Except.ok (members.length, insertA data key (DataType.set s₂))

/-! ## Per-key metadata and memory pressure (`metadata.rs`) -/

/-- `DataMetadata` from `metadata.rs`. -/
structure DataMetadata : Type where
  access_count : Nat
  last_access_time : Nat
  created_time : Nat
  modified_time : Nat
  size : Nat
deriving DecidableEq, Repr

/-- `DataMetadata::new`. -/
def DataMetadata.new (now size : Nat) : DataMetadata :=
  ⟨1, now, now, now, size⟩

/-- `DataMetadata::access`. -/
def DataMetadata.access (now : Nat) (m : DataMetadata) : DataMetadata :=
  { m with access_count := m.access_count + 1, last_access_time := now }

/-- `DataMetadata::modify` (which also records an access). -/
def DataMetadata.modify (now size : Nat) (m : DataMetadata) : DataMetadata :=
  DataMetadata.access now { m with modified_time := now, size := size }

/-- `MemoryPressure` from `metadata.rs`. -/
structure MemoryPressure : Type where
  total_keys_processed : Nat
  offload_operations : Nat
  load_operations : Nat
  cache_hits : Nat
  cache_misses : Nat
  last_pressure_level : Nat
deriving DecidableEq, Repr

/-- `MemoryPressure::new` (all counters zero). -/
def MemoryPressure.new : MemoryPressure := ⟨0, 0, 0, 0, 0, 0⟩

/-- `MemoryPressure::record_cache_hit`. -/
def MemoryPressure.record_cache_hit (p : MemoryPressure) : MemoryPressure :=
  { p with cache_hits := p.cache_hits + 1,
           total_keys_processed := p.total_keys_processed + 1 }

/-- `MemoryPressure::record_cache_miss`. -/
def MemoryPressure.record_cache_miss (p : MemoryPressure) : MemoryPressure :=
  { p with cache_misses := p.cache_misses + 1,
           total_keys_processed := p.total_keys_processed + 1 }

/-- `MemoryPressure::cache_hit_ratio`: `0.0` when nothing was processed,
else hits over total (exact rational arithmetic models the `f64`
division). -/
def cache_hit_ratio (p : MemoryPressure) : ℚ :=
  if p.total_keys_processed = 0 then 0
  else (p.cache_hits : ℚ) / (p.total_keys_processed : ℚ)

/-- `MemoryPressure::calculate_pressure_level`.  The `as u8` cast of the
non-negative `usage_ratio * 10.0` truncates (saturating at `255`), and the
`u8` addition wraps modulo `256`; both are modelled explicitly. -/
def calculate_pressure_level (p : MemoryPressure) (memory_keys max_memory_keys : Nat) : Nat :=
  if max_memory_keys = 0 then 0
  else
    let usage_ratio : ℚ := (memory_keys : ℚ) / (max_memory_keys : ℚ)
    let hit_ratio : ℚ := cache_hit_ratio p
    let base_level : Nat := min ⌊usage_ratio * 10⌋₊ 255
    let hit_adjustment : Nat := if hit_ratio < 8 / 10 then 2 else 0
    min ((base_level + hit_adjustment) % 256) 10

/-! ## Store core (`store_core.rs`, with the expiry map of `expiry.rs`
inlined as the `expire_times` field) -/

/-- The `storage` options of `config.rs` that the store consults. -/
structure Settings : Type where
  enable_default_expiry : Bool
  default_expiry_seconds : Nat
deriving DecidableEq, Repr

/-- The `Store` of `store_core.rs`: key-to-value table, per-key metadata,
disk-key markers, the `ExpiryManager`'s key-to-deadline map, optional
settings and the pressure counters. -/
structure Store : Type where
  data : DataMap
  metadata : List (String × DataMetadata)
  disk_keys : List (String × Bool)
  expire_times : List (String × Nat)
  settings : Option Settings
  memory_pressure : MemoryPressure
deriving DecidableEq, Repr

/-- `Store::new`. -/
def Store.new : Store := ⟨[], [], [], [], none, MemoryPressure.new⟩

/-- `ExpiryManager::is_expired`: a key with a recorded deadline `≤ now` is
expired; a key with no deadline is not. -/
def is_expired (now : Nat) (et : List (String × Nat)) (key : String) : Bool :=
  match lookupA et key with
  | some t => now ≥ t
  | none => false

/-- `ExpiryManager::find_expired_keys`: all keys whose deadline is
`≤ now`. -/
def find_expired_keys (now : Nat) (et : List (String × Nat)) : List String :=
  (et.filter (fun p => now ≥ p.2)).map (fun p => p.1)

/-- `ExpiryManager::remove_expired_keys`: drop the given keys from the
deadline map. -/
def remove_expired_keys (et : List (String × Nat)) (expired : List String) :
    List (String × Nat) :=
  expired.foldl removeA et

/-- `Store::record_access`: bump the key's metadata and the hit/miss
counters. -/
def record_access (now : Nat) (st : Store) (key : String) : Store :=
  let md := match lookupA st.metadata key with
    | some m => m.access now
    | none => (DataMetadata.new now 0).access now
  let st := { st with metadata := insertA st.metadata key md }
  if (lookupA st.data key).isSome then
    { st with memory_pressure := st.memory_pressure.record_cache_hit }
  else if (lookupA st.disk_keys key).isSome then
    { st with memory_pressure := st.memory_pressure.record_cache_miss }
  else st

/-- `Store::record_modification`. -/
def record_modification (now : Nat) (st : Store) (key : String) (new_size : Nat) : Store :=
  let md := match lookupA st.metadata key with
    | some m => m.modify now new_size
    | none => (DataMetadata.new now new_size).modify now new_size
  { st with metadata := insertA st.metadata key md }

/-- `Store::apply_default_expiry`: when the settings enable it, give the
key the configured default TTL. -/
def apply_default_expiry (now : Nat) (st : Store) (key : String) : Store :=
  match st.settings with
  | some s =>
      if s.enable_default_expiry then
        { st with expire_times := insertA st.expire_times key (now + s.default_expiry_seconds) }
      else st
  | none => st

/-- `Store::set_string` (`store_core.rs`, lines 557-562): record the
access, store the value verbatim as a `String` variant, record the
modification, apply the default expiry. -/
def set_string (now : Nat) (st : Store) (key value : String) : Store :=
  let st := record_access now st key
  let st := { st with data := insertA st.data key (DataType.string value) }
  let st := record_modification now st key value.length
  apply_default_expiry now st key

/-- `Store::get_string` (`store_core.rs`, lines 565-574): `None` on an
expired key; the text of a `String` variant; `None` on anything else. -/
def get_string (now : Nat) (st : Store) (key : String) : Option String :=
  if is_expired now st.expire_times key then none
  else
    match lookupA st.data key with
    | some (DataType.string v) => some v
    | _ => none

/-- `<Store as StringOperations>::set` (`store_core.rs`, lines 304-307):
delegates to `set_string` and returns `Ok` of the argument value. -/
def string_ops_set (now : Nat) (st : Store) (key value : String) :
    Except StoreError String × Store :=
  (Except.ok value, set_string now st key value)

/-- `<Store as StringOperations>::get` (`store_core.rs`, lines 309-311):
`Ok(get_string(key))` — infallible. -/
def string_ops_get (now : Nat) (st : Store) (key : String) :
    Except StoreError (Option String) :=
  Except.ok (get_string now st key)

/-- `Store::clean_expired_keys` (`store_core.rs`, lines 95-107): find the
expired keys, remove each from the data, metadata and disk-key tables,
then clear their expiry entries; returns the number removed. -/
def clean_expired_keys (now : Nat) (st : Store) : Nat × Store :=
  let expired := find_expired_keys now st.expire_times
  let count := expired.length
  let st := { st with
    data := expired.foldl removeA st.data,
    metadata := expired.foldl removeA st.metadata,
    disk_keys := expired.foldl removeA st.disk_keys }
  (count, { st with expire_times := remove_expired_keys st.expire_times expired })

theorem lookupA_foldl_removeA {α : Type} (keys : List String) (d : List (String × α))
    (k : String) :
    lookupA (keys.foldl removeA d) k = if k ∈ keys then none else lookupA d k := by
  induction keys generalizing d with
  | nil => simp
  | cons x rest ih =>
    simp only [List.foldl_cons, ih, lookupA_removeA]
    by_cases h₁ : k ∈ rest <;> by_cases h₂ : k = x <;> simp [h₁, h₂, lookupA_removeA]

/-! ## Write-ahead log (`wal.rs`) -/

/-- `LogCommand` from `wal.rs`. -/
inductive LogCommand : Type where
  | put : LogCommand
  | delete : LogCommand
  | begin : LogCommand
  | commit : LogCommand
  | rollback : LogCommand
  | checkpoint : LogCommand
deriving DecidableEq, Repr

/-- `LogEntry` from `wal.rs` (`u64` fields become `Nat`). -/
structure LogEntry : Type where
  command : LogCommand
  key : Option String
  value : Option String
  id : Nat
  timestamp : Nat
  old_value : Option String
  metadata : Option String
deriving DecidableEq, Repr

/-- The serialized command token. -/
def cmdChars : LogCommand → List Char
  | .put => "PUT".data
  | .delete => "DELETE".data
  | .begin => "BEGIN".data
  | .commit => "COMMIT".data
  | .rollback => "ROLLBACK".data
  | .checkpoint => "CHECKPOINT".data

/-- The command-token match of `LogEntry::deserialize`. -/
def parseCmd (l : List Char) : Option LogCommand :=
  if l = "PUT".data then some .put
  else if l = "DELETE".data then some .delete
  else if l = "BEGIN".data then some .begin
  else if l = "COMMIT".data then some .commit
  else if l = "ROLLBACK".data then some .rollback
  else if l = "CHECKPOINT".data then some .checkpoint
  else none

/-- Rust `char::is_whitespace` (the Unicode `White_Space` code points). -/
def isWhitespaceChar (c : Char) : Bool :=
  c ∈ [' ', '\t', '\n', '\x0b', '\x0c', '\r', Char.ofNat 0x85, Char.ofNat 0xA0,
       Char.ofNat 0x1680, Char.ofNat 0x2000, Char.ofNat 0x2001, Char.ofNat 0x2002,
       Char.ofNat 0x2003, Char.ofNat 0x2004, Char.ofNat 0x2005, Char.ofNat 0x2006,
       Char.ofNat 0x2007, Char.ofNat 0x2008, Char.ofNat 0x2009, Char.ofNat 0x200A,
       Char.ofNat 0x2028, Char.ofNat 0x2029, Char.ofNat 0x202F, Char.ofNat 0x205F,
       Char.ofNat 0x3000]

/-- Rust `str::trim`: drop whitespace at both ends. -/
def trimChars (l : List Char) : List Char :=
  ((l.dropWhile isWhitespaceChar).reverse.dropWhile isWhitespaceChar).reverse

/-- Rust `str::split('|')` on the character-list view. -/
def splitPipe : List Char → List (List Char)
  | [] => [[]]
  | c :: rest =>
      if c = '|' then [] :: splitPipe rest
      else
        match splitPipe rest with
        | [] => [[c]]
        | p :: ps => (c :: p) :: ps

/-- The decimal rendering of a `u64` (Rust `format!` of an unsigned
integer). -/
def digitChar (d : Nat) : Char := Char.ofNat (48 + d)

/-- Little-endian base-10 digits, computed with explicit fuel (the fuel
`n` always suffices since `n / 10 < n` for `n > 0`). -/
def natDigitsAux : Nat → Nat → List Nat
  | 0, _ => []
  | _ + 1, 0 => []
  | fuel + 1, n + 1 => ((n + 1) % 10) :: natDigitsAux fuel ((n + 1) / 10)

def natDigits (n : Nat) : List Nat := natDigitsAux n n

def natChars (n : Nat) : List Char :=
  if n = 0 then ['0'] else ((natDigits n).map digitChar).reverse

def isDigitChar (c : Char) : Bool := decide ('0' ≤ c) && decide (c ≤ '9')

/-- Rust `str::parse::<u64>` restricted to plain digit strings (the only
form `serialize` emits). -/
def parseNatChars (l : List Char) : Option Nat :=
  if l = [] then none
  else if l.all isDigitChar then
    some (Nat.ofDigits 10 ((l.map (fun c => c.toNat - 48)).reverse))
  else none

/-- An optional field serializes as its text, `None` as the empty
string (`unwrap_or_default`). -/
def optChars : Option String → List Char
  | none => []
  | some s => s.data

/-- `LogEntry::serialize` (`wal.rs`, lines 65-84): the `|`-joined record
followed by a newline. -/
def LogEntry.serialize (e : LogEntry) : List Char :=
  cmdChars e.command ++ '|' :: optChars e.key ++ '|' :: optChars e.value ++
    '|' :: natChars e.id ++ '|' :: natChars e.timestamp ++
    '|' :: optChars e.old_value ++ '|' :: optChars e.metadata ++ ['\n']

/-- `LogEntry::deserialize` (`wal.rs`, lines 87-138).  The wall-clock
fallback used when the timestamp field fails to parse becomes the explicit
`now` argument. -/
def LogEntry.deserialize (now : Nat) (line : List Char) : Option LogEntry :=
  let parts := splitPipe (trimChars line)
  if parts.length < 4 then none
  else
    match parseCmd (parts.getD 0 []) with
    | none => none
    | some command =>
        let timestamp : Nat :=
          if 5 ≤ parts.length then (parseNatChars (parts.getD 4 [])).getD now
          else 0
        let old_value : Option String :=
          if 6 ≤ parts.length ∧ parts.getD 5 [] ≠ [] then some (String.mk (parts.getD 5 []))
          else none
        let metadata : Option String :=
          if 7 ≤ parts.length ∧ parts.getD 6 [] ≠ [] then some (String.mk (parts.getD 6 []))
          else none
        match parseNatChars (parts.getD 3 []) with
        | none => none
        | some id =>
            some { command := command,
                   key := if parts.getD 1 [] = [] then none
                          else some (String.mk (parts.getD 1 [])),
                   value := if parts.getD 2 [] = [] then none
                            else some (String.mk (parts.getD 2 [])),
                   id := id, timestamp := timestamp,
                   old_value := old_value, metadata := metadata }

/-- The active-transaction scan of `WriteAheadLog::new`: `Begin` pushes
the id, `Commit`/`Rollback` removes its first occurrence. -/
def walScanActive (entries : List LogEntry) : List Nat :=
  entries.foldl (fun acc e =>
    match e.command with
    | .begin => acc ++ [e.id]
    | .commit => acc.erase e.id
    | .rollback => acc.erase e.id
    | _ => acc) []

/-- Application of a committed transaction's buffered operations inside
`WriteAheadLog::recover`: `Put` inserts the key/value pair, `Delete`
removes the key. -/
def applyOps (data : List (String × String)) (ops : List LogEntry) :
    List (String × String) :=
  ops.foldl (fun d op =>
    match op.command with
    | .put =>
        match op.key, op.value with
        | some k, some v => insertA d k v
        | _, _ => d
    | .delete =>
        match op.key with
        | some k => removeA d k
        | none => d
    | _ => d) data

/-- The checkpoint-index scan of `WriteAheadLog::recover`: the index of
the last `Checkpoint` entry, `0` when there is none. -/
def lastCheckpointIdx (entries : List LogEntry) : Nat :=
  entries.enum.foldl (fun acc p => if p.2.command = .checkpoint then p.1 else acc) 0

/-- One step of the replay loop of `WriteAheadLog::recover`, carried out
on the pair (recovered data, per-transaction operation buffers).
`Put`/`Delete` entries are buffered only when their transaction id is in
`活跃` (`self.active_transactions`) — the list computed by
`walScanActive`. -/
def recoverStep (activeTxns : List Nat)
    (st : List (String × String) × List (Nat × List LogEntry)) (e : LogEntry) :
    List (String × String) × List (Nat × List LogEntry) :=
  match e.command with
  | .begin =>
      if (lookupA st.2 e.id).isSome then st else (st.1, insertA st.2 e.id [])
  | .put =>
      if e.id ∈ activeTxns then
        (st.1, insertA st.2 e.id ((lookupA st.2 e.id).getD [] ++ [e]))
      else st
  | .delete =>
      if e.id ∈ activeTxns then
        (st.1, insertA st.2 e.id ((lookupA st.2 e.id).getD [] ++ [e]))
      else st
  | .commit =>
      match lookupA st.2 e.id with
      | some ops => (applyOps st.1 ops, removeA st.2 e.id)
      | none => st
  | .rollback => (st.1, removeA st.2 e.id)
  | .checkpoint => st

/-- `WriteAheadLog::recover` (`wal.rs`, lines 504-574): start from the
checkpoint data, replay the entries after the last checkpoint entry, and
return the data map.  (The final loop that drops still-active transactions
from `txn_ops` does not touch the data map and is elided.) -/
def recover (checkpointData : List (String × String)) (entries : List LogEntry)
    (activeTxns : List Nat) : List (String × String) :=
  let ckptIdx := lastCheckpointIdx entries
  let processed := entries.drop (ckptIdx + 1)
  (processed.foldl (recoverStep activeTxns) (checkpointData, [])).1

/-! ## Transactions (`transaction.rs`, `store_transaction.rs`) -/

/-- `TransactionState` from `transaction.rs`. -/
inductive TransactionState : Type where
  | active : TransactionState
  | committed : TransactionState
  | rolledBack : TransactionState
  | prepared : TransactionState
deriving DecidableEq, Repr

/-- `StoreOperation` from `transaction.rs`. -/
inductive StoreOperation : Type where
  | set : String → String → StoreOperation
  | delete : String → StoreOperation
  | lpush : String → String → StoreOperation
  | rpush : String → String → StoreOperation
  | lpop : String → StoreOperation
  | rpop : String → StoreOperation
  | ldel : String → StoreOperation
  | hset : String → String → String → StoreOperation
  | hdel : String → String → StoreOperation
  | hdelkey : String → StoreOperation
  | sadd : String → String → StoreOperation
  | srem : String → String → StoreOperation
deriving DecidableEq, Repr

/-- `Transaction` from `transaction.rs`. -/
structure Transaction : Type where
  id : Nat
  state : TransactionState
  operations : List StoreOperation
  start_time : Nat
  end_time : Option Nat
  local_data : List (String × String)
deriving DecidableEq, Repr

/-- `Transaction::new`. -/
def Transaction.new (id now : Nat) : Transaction :=
  ⟨id, .active, [], now, none, []⟩

/-- `Transaction::rollback`: mark rolled back and stamp the end time. -/
def Transaction.rollbackMark (now : Nat) (t : Transaction) : Transaction :=
  { t with state := .rolledBack, end_time := some now }

/-- `WalError` from `wal.rs` (the variants the embedding can produce). -/
inductive WalError : Type where
  | transactionNotFound : Nat → WalError
  | invalidEntry : String → WalError
deriving DecidableEq, Repr

/-- The combined state of `TransactionManager` and its `WriteAheadLog`:
the shared `Store`, the manager's active-transaction table, the WAL's
entry list and its own active-id list, and the id counter.  File fsync and
the auto-checkpoint file write are I/O effects outside the embedding; they
do not touch any of these fields. -/
structure TxnSystem : Type where
  store : Store
  active_transactions : List (Nat × Transaction)
  wal_entries : List LogEntry
  wal_active : List Nat
  next_txn_id : Nat
deriving DecidableEq, Repr

/-- `LogEntry::new`: entry without pre-image or metadata, stamped `now`. -/
def LogEntry.mkNew (now : Nat) (command : LogCommand) (key value : Option String)
    (id : Nat) : LogEntry :=
  ⟨command, key, value, id, now, none, none⟩

/-- `WriteAheadLog::append_entry` restricted to its state effects: extend
the log and track begin/commit/rollback in the WAL's active list. -/
def wal_append (sys : TxnSystem) (e : LogEntry) : TxnSystem :=
  let sys := { sys with wal_entries := sys.wal_entries ++ [e] }
  match e.command with
  | .begin => { sys with wal_active := sys.wal_active ++ [e.id] }
  | .commit => { sys with wal_active := sys.wal_active.erase e.id }
  | .rollback => { sys with wal_active := sys.wal_active.erase e.id }
  | _ => sys

/-- `WriteAheadLog::rollback`: refuse an id the WAL does not consider
active, else append a `Rollback` entry. -/
def wal_rollback (now : Nat) (sys : TxnSystem) (txn_id : Nat) : Except WalError TxnSystem :=
  if txn_id ∈ sys.wal_active then
    Except.ok (wal_append sys (LogEntry.mkNew now .rollback none none txn_id))
  else Except.error (WalError.transactionNotFound txn_id)

/-- `TransactionManager::begin_transaction`: allocate the next id, append
a `Begin` entry, insert an `Active` transaction into the table. -/
def begin_transaction (now : Nat) (sys : TxnSystem) : Nat × TxnSystem :=
  let txn_id := sys.next_txn_id + 1
  let sys := { sys with next_txn_id := txn_id }
  let sys := wal_append sys (LogEntry.mkNew now .begin none none txn_id)
  (txn_id, { sys with active_transactions :=
      (insertA sys.active_transactions txn_id (Transaction.new txn_id now)) })

/-- `TransactionManager::execute_operation`: reject an unknown or
non-active transaction, else push the operation onto the transaction's
operation list.  The store is not touched. -/
def execute_operation (sys : TxnSystem) (txn_id : Nat) (op : StoreOperation) :
    Except WalError TxnSystem :=
  match lookupA sys.active_transactions txn_id with
  | none => Except.error (WalError.transactionNotFound txn_id)
  | some t =>
      if t.state ≠ TransactionState.active then
        Except.error (WalError.invalidEntry "transaction is not active")
      else
        Except.ok { sys with active_transactions :=
          (insertA sys.active_transactions txn_id
            { t with operations := t.operations ++ [op] }) }

/-- `TransactionManager::rollback_transaction` (`transaction.rs`, lines
277-308): check the transaction exists, append a `Rollback` WAL entry,
mark the transaction `RolledBack`, remove it from the active table.  No
part of the function reads or writes the `Store`. -/
def rollback_transaction (now : Nat) (sys : TxnSystem) (txn_id : Nat) :
    Except WalError TxnSystem :=
  if (lookupA sys.active_transactions txn_id).isNone then
    Except.error (WalError.transactionNotFound txn_id)
  else
    match wal_rollback now sys txn_id with
    | Except.error e => Except.error e
    | Except.ok sys₂ =>
        let sys₃ :=
          match lookupA sys₂.active_transactions txn_id with
          | some t => { sys₂ with active_transactions :=
              (insertA sys₂.active_transactions txn_id (t.rollbackMark now)) }
          | none => sys₂
        Except.ok { sys₃ with active_transactions :=
          (removeA sys₃.active_transactions txn_id) }

/-- `<Store as StoreOperations>::delete` (also `Store::del_key`): remove
the key from all four tables, report whether it was in `data`. -/
def Store.delete (st : Store) (key : String) : Bool × Store :=
  ((lookupA st.data key).isSome,
   { st with data := removeA st.data key,
             metadata := removeA st.metadata key,
             disk_keys := removeA st.disk_keys key,
             expire_times := removeA st.expire_times key })

/-- `<Store as ListOperations>::lpop`: delete an expired key and return
`None`; else record the access and delegate to `lpop_internal`. -/
def Store.lpop (now : Nat) (st : Store) (key : String) :
    Except StoreError (Option String) × Store :=
  if is_expired now st.expire_times key then
    let st₂ := (st.delete key).2
    (Except.ok none, st₂)
  else
    let st₂ := record_access now st key
    match lpop_internal st₂.data key with
    | Except.ok (r, d) => (Except.ok r, { st₂ with data := d })
    | Except.error e => (Except.error e, st₂)

/-- `<Store as ListOperations>::rpop`: as `Store.lpop` at the tail. -/
def Store.rpop (now : Nat) (st : Store) (key : String) :
    Except StoreError (Option String) × Store :=
  if is_expired now st.expire_times key then
    let st₂ := (st.delete key).2
    (Except.ok none, st₂)
  else
    let st₂ := record_access now st key
    match rpop_internal st₂.data key with
    | Except.ok (r, d) => (Except.ok r, { st₂ with data := d })
    | Except.error e => (Except.error e, st₂)

/-- Whether an `Except` is `ok` (Rust `Result::is_ok`). -/
def isOkE {ε α : Type} : Except ε α → Bool
  | .ok _ => true
  | .error _ => false

/-- `rollback_transaction_operation` (`store_transaction.rs`, lines
108-129), the "simplified" per-operation undo: `Set` deletes the key
outright (the old value is not restored), `Delete` is not undone,
`LPush`/`RPush` pop from the corresponding end, everything else returns
`false`.  `metadata` and `old_value` are never consulted. -/
def rollback_transaction_operation (now : Nat) (st : Store) (op : StoreOperation) :
    Bool × Store :=
  match op with
  | .set key _ => st.delete key
  | .delete _ => (false, st)
  | .lpush key _ =>
      let r := Store.lpop now st key
      (isOkE r.1, r.2)
  | .rpush key _ =>
      let r := Store.rpop now st key
      (isOkE r.1, r.2)
  | _ => (false, st)

deriving instance DecidableEq for Except

/-! ## General lemmas about the association-list model -/

theorem mem_of_lookupA {κ α : Type} [DecidableEq κ] (l : List (κ × α)) (k : κ) (v : α)
    (h : lookupA l k = some v) : (k, v) ∈ l := by
  induction l with
  | nil => simp [lookupA] at h
  | cons p rest ih =>
    simp only [lookupA_cons] at h
    by_cases hp : p.1 = k
    · rw [if_pos hp] at h
      have hv : p.2 = v := by injection h
      have hpk : p = (k, v) := by cases p; simp_all
      rw [← hpk]
      exact List.mem_cons_self _ _
    · rw [if_neg hp] at h
      exact List.mem_cons_of_mem _ (ih h)

theorem lookupA_of_mem_nodup {κ α : Type} [DecidableEq κ] (l : List (κ × α)) (k : κ) (v : α)
    (hmem : (k, v) ∈ l) (hnd : (l.map Prod.fst).Nodup) : lookupA l k = some v := by
  induction l with
  | nil => simp at hmem
  | cons p rest ih =>
    simp only [List.map_cons, List.nodup_cons] at hnd
    rcases List.mem_cons.mp hmem with h | h
    · rw [← h]
      simp [lookupA]
    · have hk : p.1 ≠ k := by
        intro he
        exact hnd.1 (he ▸ (List.mem_map_of_mem Prod.fst h))
      simp [lookupA, hk, ih h hnd.2]

theorem mem_find_expired_keys (now : Nat) (et : List (String × Nat)) (k : String) :
    k ∈ find_expired_keys now et ↔ ∃ t, (k, t) ∈ et ∧ t ≤ now := by
  simp only [find_expired_keys, List.mem_map, List.mem_filter]
  constructor
  · rintro ⟨⟨a, b⟩, ⟨hmem, hle⟩, rfl⟩
    exact ⟨b, hmem, by simpa using hle⟩
  · rintro ⟨t, hmem, hle⟩
    exact ⟨(k, t), ⟨hmem, by simpa using hle⟩, rfl⟩

/-! ## C4: list range -/

/-- **C4** — For every list of length `L` stored at key `k` and all integers
`start` and `end`, `Range(k, start, end)` returns the slice `[s, e)` of the
list where `s = max(0, L+start)` if `start < 0` else `min(start, L)`, and
`e = max(0, L+end+1)` if `end < 0` else `min(end+1, L)`, and returns the
empty list whenever `s ≥ e` (including `L = 0`, where the slice is empty as
well). -/
theorem C4_lrange_matches_spec (data : DataMap) (key : String) (start stop : Int)
    (l : List String) (h : lookupA data key = some (DataType.list l)) :
    lrange_internal data key start stop =
      Except.ok
        (let L : Int := l.length
         let s : Int := if start < 0 then max 0 (L + start) else min start L
         let e : Int := if stop < 0 then max 0 (L + stop + 1) else min (stop + 1) L
         (l.drop s.toNat).take (e - s).toNat) := by
  unfold lrange_internal
  rw [h]
  simp only
  by_cases h0 : ((l.length : Int)) = 0
  · have hl : l = [] := by
      cases l with
      | nil => rfl
      | cons a t =>
        exfalso
        simp [List.length_cons] at h0
        omega
    subst hl
    simp
  · rw [if_neg h0]
    have hs : (if start < 0 then (max ((l.length : Int) + start) 0).toNat
               else min start.toNat l.length)
        = (if start < 0 then max 0 ((l.length : Int) + start)
           else min start ((l.length : Int))).toNat := by
      split_ifs with hst <;> omega
    have he : (if stop < 0 then (max ((l.length : Int) + stop + 1) 0).toNat
               else min (stop + 1).toNat l.length)
        = (if stop < 0 then max 0 ((l.length : Int) + stop + 1)
           else min (stop + 1) ((l.length : Int))).toNat := by
      split_ifs with hst <;> omega
    rw [hs, he]
    set S : Int := if start < 0 then max 0 ((l.length : Int) + start)
                   else min start ((l.length : Int)) with hS
    set E : Int := if stop < 0 then max 0 ((l.length : Int) + stop + 1)
                   else min (stop + 1) ((l.length : Int)) with hE
    have hS0 : 0 ≤ S := by rw [hS]; split_ifs with h1 <;> omega
    have hE0 : 0 ≤ E := by rw [hE]; split_ifs with h1 <;> omega
    by_cases hge : S.toNat ≥ E.toNat
    · rw [if_pos hge]
      have hz : (E - S).toNat = 0 := by omega
      rw [hz]
      simp
    · rw [if_neg hge]
      have hsub : E.toNat - S.toNat = (E - S).toNat := by omega
      rw [hsub]

/-- Witness for C4 at a concrete list and indices. -/
theorem C4_lrange_matches_spec_witness :
    lrange_internal [("k", DataType.list ["a", "b", "c"])] "k" (-2) 5 =
      Except.ok ["b", "c"] :=
  (C4_lrange_matches_spec [("k", DataType.list ["a", "b", "c"])] "k" (-2) 5
    ["a", "b", "c"] rfl).trans (by rfl)

/-! ## C5: push-coercion -/

/-- **C5** — For every key `k` currently holding a non-list value (string,
hash, or set) and every value `v`, `LPush(k, v)` and `RPush(k, v)` succeed
without a `TypeMismatch` error, replacing `k`'s value with a fresh
one-element list containing `v` and returning new length `1`; if `k` is
absent, a new one-element list is created likewise. -/
theorem C5_push_coerces (data : DataMap) (key value : String)
    (h : ∀ l : List String, lookupA data key ≠ some (DataType.list l)) :
    lpush_internal data key value
      = Except.ok (1, insertA data key (DataType.list [value])) ∧
    rpush_internal data key value
      = Except.ok (1, insertA data key (DataType.list [value])) ∧
    lookupA (insertA data key (DataType.list [value])) key
      = some (DataType.list [value]) := by
  unfold lpush_internal rpush_internal
  cases hv : lookupA data key with
  | none => exact ⟨rfl, rfl, by simp⟩
  | some v =>
    cases v with
    | list l => exact absurd hv (h l)
    | string s => exact ⟨rfl, rfl, by simp⟩
    | hash hm => exact ⟨rfl, rfl, by simp⟩
    | set sm => exact ⟨rfl, rfl, by simp⟩

/-- Witness for C5: pushing onto a key that holds a string. -/
theorem C5_push_coerces_witness :
    lpush_internal [("k", DataType.string "x")] "k" "v"
      = Except.ok (1, insertA [("k", DataType.string "x")] "k" (DataType.list ["v"])) ∧
    rpush_internal [("k", DataType.string "x")] "k" "v"
      = Except.ok (1, insertA [("k", DataType.string "x")] "k" (DataType.list ["v"])) ∧
    lookupA (insertA [("k", DataType.string "x")] "k" (DataType.list ["v"])) "k"
      = some (DataType.list ["v"]) :=
  C5_push_coerces [("k", DataType.string "x")] "k" "v"
    (by intro l hl; simp [lookupA] at hl)

/-! ## C6: Get on a non-string key -/

/-- Whether a `StoreResult` is an error. -/
def isErrorE {ε α : Type} : Except ε α → Bool
  | .ok _ => false
  | .error _ => true

/-- The store of the C6 counterexample: key "k" holds a list. -/
def c6Store : Store := { Store.new with data := [("k", DataType.list ["a"])] }

/-- **C6** counterexample — the claim says `Get(k)` fails with a
`TypeMismatch` error when `k` holds a non-list value; on the store where
"k" holds the list `["a"]`, `<Store as StringOperations>::get` instead
returns `Ok(None)` (it is infallible). -/
theorem C6_get_counterexample :
    string_ops_get 0 c6Store "k" = Except.ok none ∧
    isErrorE (string_ops_get 0 c6Store "k") = false := by
  exact ⟨rfl, rfl⟩

/-- **C6** (amended) — `Get(k)` never fails: it returns `Ok` of the stored
text for an unexpired string-valued key, `Ok(None)` for an absent key, and
`Ok(None)` (not a `TypeMismatch` error) for a key holding a non-string
value. -/
theorem C6_get_amended (now : Nat) (st : Store) (key : String) :
    isErrorE (string_ops_get now st key) = false ∧
    (∀ v, lookupA st.data key = some (DataType.string v) →
        is_expired now st.expire_times key = false →
        string_ops_get now st key = Except.ok (some v)) ∧
    (lookupA st.data key = none → string_ops_get now st key = Except.ok none) ∧
    (∀ v, lookupA st.data key = some v → (∀ s, v ≠ DataType.string s) →
        string_ops_get now st key = Except.ok none) := by
  refine ⟨rfl, ?_, ?_, ?_⟩
  · intro v hv hexp
    simp [string_ops_get, get_string, hexp, hv]
  · intro hnone
    by_cases hexp : is_expired now st.expire_times key <;>
      simp [string_ops_get, get_string, hexp, hnone]
  · intro v hv hne
    cases v with
    | string s => exact absurd rfl (hne s)
    | list l =>
        by_cases hexp : is_expired now st.expire_times key <;>
          simp [string_ops_get, get_string, hexp, hv]
    | hash hm =>
        by_cases hexp : is_expired now st.expire_times key <;>
          simp [string_ops_get, get_string, hexp, hv]
    | set sm =>
        by_cases hexp : is_expired now st.expire_times key <;>
          simp [string_ops_get, get_string, hexp, hv]

/-- Witness for the amended C6 at a store holding a string, an absent key
and a list-valued key. -/
theorem C6_get_amended_witness :
    string_ops_get 0 { Store.new with data := [("a", DataType.string "x"), ("k", DataType.list [])] } "a"
      = Except.ok (some "x") ∧
    string_ops_get 0 { Store.new with data := [("a", DataType.string "x"), ("k", DataType.list [])] } "zz"
      = Except.ok none ∧
    string_ops_get 0 { Store.new with data := [("a", DataType.string "x"), ("k", DataType.list [])] } "k"
      = Except.ok none :=
  ⟨(C6_get_amended 0 _ "a").2.1 "x" rfl rfl,
   (C6_get_amended 0 _ "zz").2.2.1 rfl,
   (C6_get_amended 0 _ "k").2.2.2 (DataType.list []) rfl
     (fun s hh => DataType.noConfusion hh)⟩

/-! ## C7: SAdd return count -/

/-- **C7** counterexample — `SAdd` on the absent key "k" with the
duplicate member list `["a", "a"]` returns `2`, while the cardinality of
the resulting set minus the cardinality before (`1 - 0`) is `1`. -/
theorem C7_sadd_count_counterexample :
    sadd_internal [] "k" ["a", "a"] = Except.ok (2, [("k", DataType.set ["a"])]) ∧
    ¬((2 : Nat) = (["a"] : List String).length - ([] : List String).length) := by
  exact ⟨rfl, by decide⟩

/-- **C7** (amended) — when `k` already holds a set, `SAdd(k, ms)` returns
the cardinality of the set after the operation minus its cardinality
before; when `k` is absent or holds a value of another type, the key is
replaced by the set of the members and the returned count is the *length*
of the member list, duplicates counted (which can exceed the cardinality
growth). -/
theorem C7_sadd_count_amended (data : DataMap) (key : String) (members : List String)
    (n : Nat) (d₂ : DataMap) (h : sadd_internal data key members = Except.ok (n, d₂)) :
    (∀ s, lookupA data key = some (DataType.set s) →
        ∃ s₂, lookupA d₂ key = some (DataType.set s₂) ∧
          s₂ = members.foldl insertS s ∧ n = s₂.length - s.length) ∧
    ((∀ s, lookupA data key ≠ some (DataType.set s)) →
        ∃ s₂, lookupA d₂ key = some (DataType.set s₂) ∧
          s₂ = members.foldl insertS [] ∧ n = members.length) := by
  constructor
  · intro s hs
    rw [sadd_internal, hs] at h
    simp only [Except.ok.injEq, Prod.mk.injEq] at h
    refine ⟨members.foldl insertS s, ?_, rfl, h.1.symm⟩
    rw [← h.2]
    simp
  · intro hns
    unfold sadd_internal at h
    cases hv : lookupA data key with
    | none =>
        rw [hv] at h
        simp only [Except.ok.injEq, Prod.mk.injEq] at h
        refine ⟨members.foldl insertS [], ?_, rfl, h.1.symm⟩
        rw [← h.2]
        simp
    | some v =>
        cases v with
        | set s => exact absurd hv (hns s)
        | string s =>
            rw [hv] at h
            simp only [Except.ok.injEq, Prod.mk.injEq] at h
            refine ⟨members.foldl insertS [], ?_, rfl, h.1.symm⟩
            rw [← h.2]
            simp
        | list l =>
            rw [hv] at h
            simp only [Except.ok.injEq, Prod.mk.injEq] at h
            refine ⟨members.foldl insertS [], ?_, rfl, h.1.symm⟩
            rw [← h.2]
            simp
        | hash hm =>
            rw [hv] at h
            simp only [Except.ok.injEq, Prod.mk.injEq] at h
            refine ⟨members.foldl insertS [], ?_, rfl, h.1.symm⟩
            rw [← h.2]
            simp

/-- Witness for the amended C7: adding `["b", "a", "b"]` to the set
`["a"]` reports `1` newly inserted member. -/
theorem C7_sadd_count_amended_witness :
    lookupA (insertA [("k", DataType.set ["a"])] "k"
        (DataType.set (["b", "a", "b"].foldl insertS ["a"]))) "k"
      = some (DataType.set (["b", "a", "b"].foldl insertS ["a"])) ∧
    (1 : Nat) = (["b", "a", "b"].foldl insertS ["a"]).length -
      (["a"] : List String).length := by
  obtain ⟨s₂, h1, h2, h3⟩ :=
    (C7_sadd_count_amended [("k", DataType.set ["a"])] "k" ["b", "a", "b"] 1
      (insertA [("k", DataType.set ["a"])] "k"
        (DataType.set (["b", "a", "b"].foldl insertS ["a"]))) rfl).1 ["a"] rfl
  subst h2
  exact ⟨h1, h3⟩

/-! ## C8: expired-key sweep -/

/-- **C8** — after `clean_expired_keys` runs (at time `now`), every key
whose recorded expiry deadline is `≤ now` is gone from all four
structures — data, metadata, disk-key markers, and the expiry index — and
every non-expired key's entry in each of the four structures is unchanged.
The `Nodup` hypothesis is the `HashMap` invariant that the expiry index
holds at most one deadline per key. -/
theorem C8_clean_expired_keys_sweep (now : Nat) (st : Store) (k : String)
    (hnd : (st.expire_times.map Prod.fst).Nodup) :
    (∀ t, lookupA st.expire_times k = some t → t ≤ now →
        lookupA (clean_expired_keys now st).2.data k = none ∧
        lookupA (clean_expired_keys now st).2.metadata k = none ∧
        lookupA (clean_expired_keys now st).2.disk_keys k = none ∧
        lookupA (clean_expired_keys now st).2.expire_times k = none) ∧
    ((∀ t, lookupA st.expire_times k = some t → now < t) →
        lookupA (clean_expired_keys now st).2.data k = lookupA st.data k ∧
        lookupA (clean_expired_keys now st).2.metadata k = lookupA st.metadata k ∧
        lookupA (clean_expired_keys now st).2.disk_keys k = lookupA st.disk_keys k ∧
        lookupA (clean_expired_keys now st).2.expire_times k = lookupA st.expire_times k) := by
  constructor
  · intro t ht hle
    have hmem : k ∈ find_expired_keys now st.expire_times :=
      (mem_find_expired_keys now st.expire_times k).mpr
        ⟨t, mem_of_lookupA _ _ _ ht, hle⟩
    simp [clean_expired_keys, remove_expired_keys, lookupA_foldl_removeA, hmem]
  · intro hlive
    have hmem : k ∉ find_expired_keys now st.expire_times := by
      intro hk
      rcases (mem_find_expired_keys now st.expire_times k).mp hk with ⟨t, htm, hle⟩
      have := hlive t (lookupA_of_mem_nodup _ _ _ htm hnd)
      omega
    simp [clean_expired_keys, remove_expired_keys, lookupA_foldl_removeA, hmem]

/-- Witness for C8: a store where "gone" is past its deadline and "live"
is not. -/
theorem C8_clean_expired_keys_sweep_witness :
    (lookupA (clean_expired_keys 100
        { Store.new with data := [("gone", DataType.string "x"), ("live", DataType.string "y")],
                         metadata := [("gone", DataMetadata.new 0 1), ("live", DataMetadata.new 0 1)],
                         disk_keys := [("gone", true)],
                         expire_times := [("gone", 50), ("live", 200)] }).2.data "gone" = none ∧
      lookupA (clean_expired_keys 100
        { Store.new with data := [("gone", DataType.string "x"), ("live", DataType.string "y")],
                         metadata := [("gone", DataMetadata.new 0 1), ("live", DataMetadata.new 0 1)],
                         disk_keys := [("gone", true)],
                         expire_times := [("gone", 50), ("live", 200)] }).2.metadata "gone" = none ∧
      lookupA (clean_expired_keys 100
        { Store.new with data := [("gone", DataType.string "x"), ("live", DataType.string "y")],
                         metadata := [("gone", DataMetadata.new 0 1), ("live", DataMetadata.new 0 1)],
                         disk_keys := [("gone", true)],
                         expire_times := [("gone", 50), ("live", 200)] }).2.disk_keys "gone" = none ∧
      lookupA (clean_expired_keys 100
        { Store.new with data := [("gone", DataType.string "x"), ("live", DataType.string "y")],
                         metadata := [("gone", DataMetadata.new 0 1), ("live", DataMetadata.new 0 1)],
                         disk_keys := [("gone", true)],
                         expire_times := [("gone", 50), ("live", 200)] }).2.expire_times "gone" = none) ∧
    (lookupA (clean_expired_keys 100
        { Store.new with data := [("gone", DataType.string "x"), ("live", DataType.string "y")],
                         metadata := [("gone", DataMetadata.new 0 1), ("live", DataMetadata.new 0 1)],
                         disk_keys := [("gone", true)],
                         expire_times := [("gone", 50), ("live", 200)] }).2.data "live" =
      lookupA [("gone", DataType.string "x"), ("live", DataType.string "y")] "live") :=
  ⟨(C8_clean_expired_keys_sweep 100 _ "gone" (by decide)).1 50 (by decide) (by decide),
   ((C8_clean_expired_keys_sweep 100 _ "live" (by decide)).2
      (by intro t ht; simp [lookupA] at ht; omega)).1⟩

/-! ## C9: memory-pressure level -/

/-- The pressure formula as the claim words it: base `⌊10·m/M⌋` adjusted
by `+2` below hit ratio `0.5`, by `+1` in `[0.5, 0.8)`, clamped to `10`,
and `0` when `M = 0`. -/
def claimed_pressure_level (p : MemoryPressure) (memory_keys max_memory_keys : Nat) : Nat :=
  if max_memory_keys = 0 then 0
  else
    let base : Nat := ⌊((memory_keys : ℚ) / (max_memory_keys : ℚ)) * 10⌋₊
    let adj : Nat :=
      if cache_hit_ratio p < 5 / 10 then 2
      else if cache_hit_ratio p < 8 / 10 then 1 else 0
    min (base + adj) 10

/-- **C9** counterexample — with 7 cache hits out of 10 processed keys
(hit ratio `0.7`), no memory keys and a maximum of 10, the code computes
pressure `2` (a flat `+2` for any ratio below `0.8`), while the claimed
formula gives `1` (`+1` for a ratio in `[0.5, 0.8)`). -/
theorem C9_pressure_counterexample :
    calculate_pressure_level ⟨10, 0, 0, 7, 3, 0⟩ 0 10 = 2 ∧
    claimed_pressure_level ⟨10, 0, 0, 7, 3, 0⟩ 0 10 = 1 ∧
    calculate_pressure_level ⟨10, 0, 0, 7, 3, 0⟩ 0 10 ≠
      claimed_pressure_level ⟨10, 0, 0, 7, 3, 0⟩ 0 10 := by
  have h1 : calculate_pressure_level ⟨10, 0, 0, 7, 3, 0⟩ 0 10 = 2 := by
    unfold calculate_pressure_level cache_hit_ratio
    norm_num
  have h2 : claimed_pressure_level ⟨10, 0, 0, 7, 3, 0⟩ 0 10 = 1 := by
    unfold claimed_pressure_level cache_hit_ratio
    norm_num
  exact ⟨h1, h2, by omega⟩

/-- **C9** (amended) — the computed pressure level always lies in `[0, 10]`
and is `0` when `M = 0`; for `M > 0` (and `m` small enough that the `u8`
cast of the base level does not saturate, `m ≤ 25·M`) it equals
`min(10, ⌊10·m/M⌋ + adj)` where `adj = 2` whenever the running cache hit
ratio is below `0.8` and `0` otherwise — there is no separate `+1` band at
`0.5`. -/
theorem C9_pressure_amended (p : MemoryPressure) (m M : Nat) :
    calculate_pressure_level p m M ≤ 10 ∧
    (M = 0 → calculate_pressure_level p m M = 0) ∧
    (M ≠ 0 → m ≤ 25 * M →
      calculate_pressure_level p m M =
        min ((10 * m) / M + (if cache_hit_ratio p < 8 / 10 then 2 else 0)) 10) := by
  refine ⟨?_, ?_, ?_⟩
  · unfold calculate_pressure_level
    split_ifs <;> simp
  · intro h
    simp [calculate_pressure_level, h]
  · intro hM hm
    have hMpos : 0 < M := Nat.pos_of_ne_zero hM
    have hbase : ⌊((m : ℚ) / (M : ℚ)) * 10⌋₊ = (10 * m) / M := by
      have h1 : ((m : ℚ) / (M : ℚ)) * 10 = ((10 * m : ℕ) : ℚ) / ((M : ℕ) : ℚ) := by
        push_cast
        ring
      rw [h1, Nat.floor_div_nat, Nat.floor_natCast]
    have hle : (10 * m) / M ≤ 250 := by
      calc (10 * m) / M ≤ (250 * M) / M := Nat.div_le_div_right (by omega)
        _ = 250 := Nat.mul_div_cancel 250 hMpos
    unfold calculate_pressure_level
    rw [if_neg hM]
    simp only [hbase]
    have hmin : min ((10 * m) / M) 255 = (10 * m) / M := by omega
    rw [hmin]
    have hlt : (10 * m) / M + (if cache_hit_ratio p < 8 / 10 then 2 else 0) < 256 := by
      split_ifs <;> omega
    rw [Nat.mod_eq_of_lt hlt]

/-- Witness for the amended C9 at hits 7 / total 10, 5 memory keys and a
maximum of 10. -/
theorem C9_pressure_amended_witness :
    calculate_pressure_level ⟨10, 0, 0, 7, 3, 0⟩ 5 10 =
      min ((10 * 5) / 10 + (if cache_hit_ratio ⟨10, 0, 0, 7, 3, 0⟩ < 8 / 10 then 2 else 0)) 10 :=
  (C9_pressure_amended ⟨10, 0, 0, 7, 3, 0⟩ 5 10).2.2 (by decide) (by decide)

/-! ## C10: WAL entry codec round trip -/

theorem natDigitsAux_eq_digits (fuel n : Nat) (h : n ≤ fuel) :
    natDigitsAux fuel n = Nat.digits 10 n := by
  induction fuel generalizing n with
  | zero =>
    have hn : n = 0 := by omega
    subst hn
    simp [natDigitsAux]
  | succ f ih =>
    cases n with
    | zero => simp [natDigitsAux]
    | succ m =>
      rw [natDigitsAux, ih ((m + 1) / 10) (by omega),
        Nat.digits_def' (by norm_num : 1 < 10) (Nat.succ_pos m)]

theorem natDigits_eq_digits (n : Nat) : natDigits n = Nat.digits 10 n :=
  natDigitsAux_eq_digits n n le_rfl

theorem natDigits_lt (n : Nat) : ∀ d ∈ natDigits n, d < 10 := by
  rw [natDigits_eq_digits]
  exact fun d hd => Nat.digits_lt_base (by norm_num) hd

theorem natDigits_ne_nil (n : Nat) (h : n ≠ 0) : natDigits n ≠ [] := by
  rw [natDigits_eq_digits]
  exact Nat.digits_ne_nil_iff_ne_zero.mpr h

theorem isDigitChar_digitChar (d : Nat) (h : d < 10) : isDigitChar (digitChar d) = true := by
  interval_cases d <;> decide

theorem digitChar_ne_pipe (d : Nat) (h : d < 10) : digitChar d ≠ '|' := by
  interval_cases d <;> decide

theorem toNat_digitChar (d : Nat) (h : d < 10) : (digitChar d).toNat - 48 = d := by
  interval_cases d <;> decide

theorem natChars_ne_nil (n : Nat) : natChars n ≠ [] := by
  by_cases h0 : n = 0
  · subst h0; decide
  · simp only [natChars, if_neg h0, ne_eq, List.reverse_eq_nil_iff, List.map_eq_nil_iff]
    exact natDigits_ne_nil n h0

theorem natChars_no_pipe (n : Nat) : '|' ∉ natChars n := by
  by_cases h0 : n = 0
  · subst h0; decide
  · intro hmem
    simp only [natChars, if_neg h0, List.mem_reverse, List.mem_map] at hmem
    rcases hmem with ⟨d, hdm, hEq⟩
    exact digitChar_ne_pipe d (natDigits_lt n d hdm) hEq

theorem parseNat_natChars (n : Nat) : parseNatChars (natChars n) = some n := by
  by_cases h0 : n = 0
  · subst h0
    rfl
  · have hall : (natChars n).all isDigitChar = true := by
      rw [List.all_eq_true]
      intro c hc
      simp only [natChars, if_neg h0, List.mem_reverse, List.mem_map] at hc
      rcases hc with ⟨d, hdm, rfl⟩
      exact isDigitChar_digitChar d (natDigits_lt n d hdm)
    unfold parseNatChars
    rw [if_neg (natChars_ne_nil n), if_pos hall]
    congr 1
    simp only [natChars, if_neg h0, List.map_reverse, List.reverse_reverse, List.map_map]
    have hmap : List.map ((fun c => c.toNat - 48) ∘ digitChar) (natDigits n)
        = List.map id (natDigits n) :=
      List.map_congr_left (fun d hdm => by
        simp only [Function.comp_apply, id_eq]
        exact toNat_digitChar d (natDigits_lt n d hdm))
    rw [hmap, List.map_id, natDigits_eq_digits]
    exact Nat.ofDigits_digits 10 n

theorem splitPipe_no_pipe (a : List Char) (h : '|' ∉ a) : splitPipe a = [a] := by
  induction a with
  | nil => rfl
  | cons c rest ih =>
    simp only [List.mem_cons, not_or] at h
    have hc : c ≠ '|' := Ne.symm h.1
    simp only [splitPipe, if_neg hc]
    rw [ih h.2]

theorem splitPipe_append (a b : List Char) (h : '|' ∉ a) :
    splitPipe (a ++ '|' :: b) = a :: splitPipe b := by
  induction a with
  | nil => simp [splitPipe]
  | cons c rest ih =>
    simp only [List.mem_cons, not_or] at h
    have hc : c ≠ '|' := Ne.symm h.1
    simp only [List.cons_append, splitPipe, if_neg hc, List.append_eq]
    rw [ih h.2]

theorem trimChars_wrap (c0 : Char) (t : List Char)
    (h0 : isWhitespaceChar c0 = false)
    (hl : ∀ cl rest, (c0 :: t).reverse = cl :: rest → isWhitespaceChar cl = false) :
    trimChars ((c0 :: t) ++ ['\n']) = c0 :: t := by
  unfold trimChars
  have hA : ((c0 :: t) ++ ['\n']).dropWhile isWhitespaceChar = (c0 :: t) ++ ['\n'] := by
    rw [List.cons_append, List.dropWhile_cons, h0]
    simp
  rw [hA]
  have hB : ((c0 :: t) ++ ['\n']).reverse = '\n' :: (c0 :: t).reverse := by simp
  rw [hB, List.dropWhile_cons]
  rw [show isWhitespaceChar '\n' = true from by decide]
  simp only [if_true]
  cases hrev : (c0 :: t).reverse with
  | nil => exact absurd hrev (by simp)
  | cons cl rest =>
    rw [List.dropWhile_cons, hl cl rest hrev]
    rw [if_neg (by simp)]
    rw [← hrev, List.reverse_reverse]

theorem parseCmd_cmdChars (c : LogCommand) : parseCmd (cmdChars c) = some c := by
  cases c <;> rfl

theorem cmdChars_no_pipe (c : LogCommand) : '|' ∉ cmdChars c := by
  cases c <;> decide

/-- An optional field with non-empty text deserializes back to itself. -/
theorem optChars_roundtrip (o : Option String) (h : ∀ s, o = some s → s.data ≠ []) :
    (if optChars o = [] then none else some (String.mk (optChars o))) = o := by
  cases o with
  | none => rfl
  | some s =>
    simp only [optChars]
    rw [if_neg (h s rfl)]

/-- The variant of `optChars_roundtrip` with the negated condition. -/
theorem optChars_roundtrip₂ (o : Option String) (h : ∀ s, o = some s → s.data ≠ []) :
    (if optChars o ≠ [] then some (String.mk (optChars o)) else none) = o := by
  cases o with
  | none => simp [optChars]
  | some s =>
    simp only [optChars]
    rw [if_pos (h s rfl)]

theorem optChars_no_pipe (o : Option String)
    (h : ∀ s, o = some s → '|' ∉ s.data) : '|' ∉ optChars o := by
  cases o with
  | none => simp [optChars]
  | some s => exact h s rfl

/-- **C10** (amended) — for every WAL log entry whose `key`, `value`,
`old_value`, and `metadata` fields are each either `None` or a non-empty
string containing neither the `'|'` character nor a newline, **and whose
`metadata`, when present, does not end in a whitespace character**,
deserializing the serialized entry returns `Some` entry equal to the
original in `command`, `key`, `value`, `id`, `timestamp`, `old_value`, and
`metadata`.  (The whitespace proviso is forced by `line.trim()` in
`deserialize`, see the counterexample.) -/
theorem C10_serialize_roundtrip (e : LogEntry) (now : Nat)
    (hk : ∀ s, e.key = some s → s.data ≠ [] ∧ '|' ∉ s.data ∧ '\n' ∉ s.data)
    (hv : ∀ s, e.value = some s → s.data ≠ [] ∧ '|' ∉ s.data ∧ '\n' ∉ s.data)
    (hov : ∀ s, e.old_value = some s → s.data ≠ [] ∧ '|' ∉ s.data ∧ '\n' ∉ s.data)
    (hmd : ∀ s, e.metadata = some s → s.data ≠ [] ∧ '|' ∉ s.data ∧ '\n' ∉ s.data)
    (hmdw : ∀ s cl rest, e.metadata = some s → s.data.reverse = cl :: rest →
        isWhitespaceChar cl = false) :
    LogEntry.deserialize now e.serialize = some e := by
  obtain ⟨c0, t, hcmd, hc0⟩ :
      ∃ c0 t, cmdChars e.command = c0 :: t ∧ isWhitespaceChar c0 = false := by
    cases e.command <;> exact ⟨_, _, rfl, by decide⟩
  have hser : e.serialize =
      (cmdChars e.command ++ '|' :: (optChars e.key ++ '|' :: (optChars e.value ++
        '|' :: (natChars e.id ++ '|' :: (natChars e.timestamp ++
        '|' :: (optChars e.old_value ++ '|' :: optChars e.metadata)))))) ++ ['\n'] := by
    simp [LogEntry.serialize, List.append_assoc]
  have hl : ∀ cl rest,
      (cmdChars e.command ++ '|' :: (optChars e.key ++ '|' :: (optChars e.value ++
        '|' :: (natChars e.id ++ '|' :: (natChars e.timestamp ++
        '|' :: (optChars e.old_value ++ '|' :: optChars e.metadata)))))).reverse
        = cl :: rest →
      isWhitespaceChar cl = false := by
    intro cl rest hrev
    rw [show (cmdChars e.command ++ '|' :: (optChars e.key ++ '|' :: (optChars e.value ++
        '|' :: (natChars e.id ++ '|' :: (natChars e.timestamp ++
        '|' :: (optChars e.old_value ++ '|' :: optChars e.metadata)))))) =
      ((cmdChars e.command ++ '|' :: (optChars e.key ++ '|' :: (optChars e.value ++
        '|' :: (natChars e.id ++ '|' :: (natChars e.timestamp ++
        '|' :: optChars e.old_value))))) ++ '|' :: optChars e.metadata)
      from by simp [List.append_assoc]] at hrev
    rw [List.reverse_append, List.reverse_cons] at hrev
    cases hmd' : e.metadata with
    | none =>
        rw [hmd'] at hrev
        simp only [optChars, List.reverse_nil, List.nil_append, List.cons_append] at hrev
        rw [show cl = '|' from (List.cons.inj hrev.symm).1]
        decide
    | some s =>
        rw [hmd'] at hrev
        simp only [optChars] at hrev
        cases hsrev : s.data.reverse with
        | nil => exact absurd (List.reverse_eq_nil_iff.mp hsrev) (hmd s hmd').1
        | cons g gr =>
            rw [hsrev, List.cons_append, List.cons_append] at hrev
            rw [show cl = g from (List.cons.inj hrev.symm).1]
            exact hmdw s g gr hmd' hsrev
  have htrim : trimChars e.serialize =
      cmdChars e.command ++ '|' :: (optChars e.key ++ '|' :: (optChars e.value ++
        '|' :: (natChars e.id ++ '|' :: (natChars e.timestamp ++
        '|' :: (optChars e.old_value ++ '|' :: optChars e.metadata))))) := by
    rw [hser, hcmd, List.cons_append]
    rw [trimChars_wrap c0 _ hc0 (by rw [← List.cons_append, ← hcmd]; exact hl)]
  have hkp : '|' ∉ optChars e.key := optChars_no_pipe _ (fun s hs => (hk s hs).2.1)
  have hvp : '|' ∉ optChars e.value := optChars_no_pipe _ (fun s hs => (hv s hs).2.1)
  have hovp : '|' ∉ optChars e.old_value := optChars_no_pipe _ (fun s hs => (hov s hs).2.1)
  have hmdp : '|' ∉ optChars e.metadata := optChars_no_pipe _ (fun s hs => (hmd s hs).2.1)
  have hsplit : splitPipe (trimChars e.serialize) =
      [cmdChars e.command, optChars e.key, optChars e.value, natChars e.id,
       natChars e.timestamp, optChars e.old_value, optChars e.metadata] := by
    rw [htrim]
    rw [splitPipe_append _ _ (cmdChars_no_pipe e.command)]
    rw [splitPipe_append _ _ hkp]
    rw [splitPipe_append _ _ hvp]
    rw [splitPipe_append _ _ (natChars_no_pipe e.id)]
    rw [splitPipe_append _ _ (natChars_no_pipe e.timestamp)]
    rw [splitPipe_append _ _ hovp]
    rw [splitPipe_no_pipe _ hmdp]
  unfold LogEntry.deserialize
  rw [hsplit]
  norm_num [List.getD, parseCmd_cmdChars, parseNat_natChars]
  rw [optChars_roundtrip e.key (fun s hs => (hk s hs).1)]
  rw [optChars_roundtrip e.value (fun s hs => (hv s hs).1)]
  rw [optChars_roundtrip e.old_value (fun s hs => (hov s hs).1)]
  rw [optChars_roundtrip e.metadata (fun s hs => (hmd s hs).1)]

/-- **C10** counterexample — the entry with metadata `" "` satisfies the
claim's conditions (a non-empty string containing neither `'|'` nor a
newline), yet the round trip does not return the original entry:
`line.trim()` in `deserialize` eats the trailing space, so the metadata
field comes back as `None`. -/
theorem C10_serialize_roundtrip_counterexample :
    ((" " : String).data ≠ [] ∧ '|' ∉ (" " : String).data ∧
      '\n' ∉ (" " : String).data) ∧
    LogEntry.deserialize 0
        (LogEntry.serialize ⟨LogCommand.put, some "k", some "v", 1, 2, none, some " "⟩)
      = some ⟨LogCommand.put, some "k", some "v", 1, 2, none, none⟩ ∧
    LogEntry.deserialize 0
        (LogEntry.serialize ⟨LogCommand.put, some "k", some "v", 1, 2, none, some " "⟩)
      ≠ some ⟨LogCommand.put, some "k", some "v", 1, 2, none, some " "⟩ := by
  refine ⟨by decide, by decide, by decide⟩

/-- Witness for the amended C10 at a concrete entry with all four optional
fields present. -/
theorem C10_serialize_roundtrip_witness :
    LogEntry.deserialize 0
        (LogEntry.serialize ⟨LogCommand.put, some "k", some "v", 1, 2, some "old", some "m"⟩)
      = some ⟨LogCommand.put, some "k", some "v", 1, 2, some "old", some "m"⟩ :=
  C10_serialize_roundtrip ⟨LogCommand.put, some "k", some "v", 1, 2, some "old", some "m"⟩ 0
    (by intro s hs; rw [Option.some.injEq] at hs; subst hs
        exact ⟨by decide, by decide, by decide⟩)
    (by intro s hs; rw [Option.some.injEq] at hs; subst hs
        exact ⟨by decide, by decide, by decide⟩)
    (by intro s hs; rw [Option.some.injEq] at hs; subst hs
        exact ⟨by decide, by decide, by decide⟩)
    (by intro s hs; rw [Option.some.injEq] at hs; subst hs
        exact ⟨by decide, by decide, by decide⟩)
    (by intro s cl rest hs hrev
        rw [Option.some.injEq] at hs
        subst hs
        rw [show ("m" : String).data.reverse = ['m'] from rfl] at hrev
        injection hrev with h1 h2
        subst h1
        decide)

/-! ## C2: WAL recovery of committed transactions -/

/-- The WAL of the C2 failing input: a checkpoint entry followed by a
fully committed transaction (`Begin 2`, `Put k=v` inside 2, `Commit 2`). -/
def c2Entries : List LogEntry :=
  [⟨LogCommand.checkpoint, some "checkpoints/checkpoint_1.dat", none, 1, 0, none, none⟩,
   ⟨LogCommand.begin, none, none, 2, 1, none, none⟩,
   ⟨LogCommand.put, some "k", some "v", 2, 2, none, none⟩,
   ⟨LogCommand.commit, none, none, 2, 3, none, none⟩]

/-- **C2** — transaction 2 commits `k ↦ v` after the most recent
checkpoint, so replay should recover `k ↦ v`.  But the active-transaction
scan removes committed ids, `recover` buffers `Put`/`Delete` entries only
for ids still in that list, so the committed transaction's `Commit` finds
an empty buffer and applies nothing: the recovered map (started from the
empty checkpoint data) does not contain `k`.  This contradicts the
module's own tests (`test_checkpoint_and_recovery`, `test_compaction`). -/
theorem C2_recover_drops_committed :
    walScanActive c2Entries = [] ∧
    recover [] c2Entries (walScanActive c2Entries) = [] ∧
    lookupA (recover [] c2Entries (walScanActive c2Entries)) "k" = none := by
  refine ⟨rfl, rfl, rfl⟩

/-! ## C3: Set with an " EX n" suffix -/

/-- **C3** — executing `Set("x", "hello EX 5")` through the live path
(`<Store as StringOperations>::set` → `Store::set_string`) stores the
verbatim text `"hello EX 5"`, sets no expiry, and returns the value rather
than `"OK"`.  The claim — and the crate's own test
`test_store_expiry_edge_cases` (`store_tests.rs`, lines 542-559) — expects
the stored value `"hello"`, a 5-second expiry, and `"OK"`. -/
theorem C3_set_ex_suffix_not_handled :
    lookupA (string_ops_set 1000 Store.new "x" "hello EX 5").2.data "x"
      = some (DataType.string "hello EX 5") ∧
    lookupA (string_ops_set 1000 Store.new "x" "hello EX 5").2.expire_times "x" = none ∧
    (string_ops_set 1000 Store.new "x" "hello EX 5").1 = Except.ok "hello EX 5" ∧
    (Except.ok "hello EX 5" : Except StoreError String) ≠ Except.ok "OK" := by
  refine ⟨rfl, rfl, rfl, by decide⟩

/-! ## C1: rollback and state restoration -/

/-- Projection used by the C1 counterexample: the value of a key in the
store of a successfully rolled-back system. -/
def rollbackStoreLookup (r : Except WalError TxnSystem) (k : String) :
    Option (Option DataType) :=
  match r with
  | .ok sys => some (lookupA sys.store.data k)
  | .error _ => none

/-- The system of the C1 counterexample before `Begin`: key "k" holds
"old". -/
def c1Sys0 : TxnSystem :=
  ⟨{ Store.new with data := [("k", DataType.string "old")] }, [], [], [], 100⟩

/-- After `Begin`, the `Set k new` command line both mutates the store
directly (the command dispatcher calls `StoreManager::set_string` →
`Store::set_string` for every `set`, inside a transaction or not) and is
recorded in the open transaction via
`TransactionManager::execute_operation`. -/
def c1AfterSet : Except WalError TxnSystem :=
  let p := begin_transaction 50 c1Sys0
  let sys := { p.2 with store := set_string 51 p.2.store "k" "new" }
  execute_operation sys p.1 (StoreOperation.set "k" "new")

/-- The system after `Rollback` of transaction 101 (the id allocated by
`begin_transaction` from seed 100). -/
def c1AfterRollback : Except WalError TxnSystem :=
  match c1AfterSet with
  | .ok sys => rollback_transaction 52 sys 101
  | .error e => .error e

/-- **C1** counterexample — in the scenario `Begin; Set k new; Rollback`
starting from `k ↦ "old"`, the store after `Rollback` still holds
`k ↦ "new"`: the observable post-rollback state differs from the state at
the transaction's `Begin`, because `rollback_transaction` performs no
state restoration at all. -/
theorem C1_rollback_counterexample :
    lookupA c1Sys0.store.data "k" = some (DataType.string "old") ∧
    rollbackStoreLookup c1AfterRollback "k" = some (some (DataType.string "new")) ∧
    (some (DataType.string "new") : Option DataType) ≠ some (DataType.string "old") := by
  refine ⟨rfl, rfl, by decide⟩

/-- **C1** (amended) — `Rollback(txn_id)` appends a `Rollback` WAL entry,
marks the transaction `RolledBack` and removes it from the active set, but
restores nothing: the store after a successful `rollback_transaction` is
exactly the store before the call, so mutations executed during the
transaction persist.  The undo helper `rollback_transaction_operation` is
never invoked by `rollback_transaction`, and even it ignores
`metadata`/`old_value`: it undoes `Set` by plainly deleting the key and
cannot undo `Delete` at all. -/
theorem C1_rollback_no_restore (now : Nat) (sys : TxnSystem) (txn_id : Nat)
    (sys₂ : TxnSystem) (st : Store) (k v : String)
    (h : rollback_transaction now sys txn_id = Except.ok sys₂) :
    sys₂.store = sys.store ∧
    sys₂.wal_entries = sys.wal_entries ++
      [LogEntry.mkNew now LogCommand.rollback none none txn_id] ∧
    lookupA sys₂.active_transactions txn_id = none ∧
    rollback_transaction_operation now st (StoreOperation.set k v)
      = Store.delete st k ∧
    rollback_transaction_operation now st (StoreOperation.delete k)
      = (false, st) := by
  unfold rollback_transaction at h
  by_cases h1 : (lookupA sys.active_transactions txn_id).isNone
  · rw [if_pos h1] at h
    exact absurd h (by simp)
  · rw [if_neg h1] at h
    unfold wal_rollback at h
    by_cases h2 : txn_id ∈ sys.wal_active
    · rw [if_pos h2] at h
      simp only [wal_append, LogEntry.mkNew] at h
      cases hlk : lookupA sys.active_transactions txn_id with
      | none => rw [hlk] at h1; simp at h1
      | some tx =>
          rw [hlk] at h
          simp only [Except.ok.injEq] at h
          subst h
          refine ⟨rfl, rfl, ?_, rfl, rfl⟩
          simp [lookupA_removeA]
    · rw [if_neg h2] at h
      exact absurd h (by simp)

/-- Witness for the amended C1: rolling back the active transaction 5. -/
theorem C1_rollback_no_restore_witness :
    (⟨Store.new, [], [LogEntry.mkNew 7 LogCommand.rollback none none 5], [], 10⟩
        : TxnSystem).store
      = (⟨Store.new, [(5, Transaction.new 5 0)], [], [5], 10⟩ : TxnSystem).store ∧
    (⟨Store.new, [], [LogEntry.mkNew 7 LogCommand.rollback none none 5], [], 10⟩
        : TxnSystem).wal_entries
      = (⟨Store.new, [(5, Transaction.new 5 0)], [], [5], 10⟩ : TxnSystem).wal_entries ++
        [LogEntry.mkNew 7 LogCommand.rollback none none 5] ∧
    lookupA (⟨Store.new, [], [LogEntry.mkNew 7 LogCommand.rollback none none 5], [], 10⟩
        : TxnSystem).active_transactions 5 = none ∧
    rollback_transaction_operation 7 Store.new (StoreOperation.set "k" "v")
      = Store.delete Store.new "k" ∧
    rollback_transaction_operation 7 Store.new (StoreOperation.delete "k")
      = (false, Store.new) :=
  C1_rollback_no_restore 7 ⟨Store.new, [(5, Transaction.new 5 0)], [], [5], 10⟩ 5
    ⟨Store.new, [], [LogEntry.mkNew 7 LogCommand.rollback none none 5], [], 10⟩
    Store.new "k" "v" (by rfl)

end KVStore
